import Mathlib

/-!
Verification of the multi-provider dispatch engine of the ai-chatbot-module
repository (chatbot/multi_model_manager.py), against its natural-language
specification.

The embedding models:
  * the error-classification predicates built on Python substring tests
    (`is_retryable`, `is_model_unavailable` in `MultiModelLLMManager.generate`),
  * the registry of provider entries (`self.models`) and the per-provider
    statistics dictionary (`self.model_stats`),
  * the dispatch loop `MultiModelLLMManager.generate` (fallback traversal,
    stats updates, session-scoped disabling, exhaustion error),
  * the Hugging Face adapter `_generate_with_huggingface` (intra-provider
    model fallback and the single warm-up retry),
  * the prompt flattener `_messages_to_prompt`.

External effects (HTTP calls of the adapters, the typo normalizer
`TextCorrector.fix_llm_response`) are supplied as oracle functions: an
adapter invocation either returns text (`Except.ok`) or raises an exception
whose message is the `Except.error` payload, exactly as the dispatch loop
observes them through `str(e)`.
-/

/-- Embeds Python's `str.lower()`: lowercase every character. -/
def pyLower (s : String) : String := ⟨s.data.map Char.toLower⟩

/-- Whether the first list is an initial segment of the second. -/
def startsWithChars : List Char → List Char → Bool
  | [], _ => true
  | _ :: _, [] => false
  | n :: ns, h :: hs => n == h && startsWithChars ns hs

/-- Whether the needle occurs somewhere in the haystack. -/
def occursInChars (needle : List Char) : List Char → Bool
  | [] => needle.isEmpty
  | c :: hs => startsWithChars needle (c :: hs) || occursInChars needle hs

/-- Embeds Python's substring test `needle in haystack`. -/
def containsStr (haystack needle : String) : Bool :=
  occursInChars needle.data haystack.data

/-- The retryable-error keywords of `MultiModelLLMManager.generate`
(line 353-356). -/
def retryKeywords : List String :=
  ["rate limit", "429", "503", "timeout", "connection",
   "service unavailable", "too many requests"]

/-- `is_retryable` from `MultiModelLLMManager.generate` (line 353):
`any(keyword in error_str for keyword in [...])`, applied to the lowercased
error text. -/
def is_retryable (errorStr : String) : Bool :=
  retryKeywords.any (fun k => containsStr errorStr k)

/-- `is_model_unavailable` from `MultiModelLLMManager.generate` (line 358):
`'410' in error_str or 'gone' in error_str or '404' in error_str or
'all hugging face models failed' in error_str`. -/
def is_model_unavailable (errorStr : String) : Bool :=
  containsStr errorStr "410" || containsStr errorStr "gone" ||
    containsStr errorStr "404" ||
    containsStr errorStr "all hugging face models failed"

/-- The classification verdicts of spec section 4.3. -/
inductive Verdict where
  | retryable
  | permanentlyUnavailable
  | fatal
deriving DecidableEq, Repr

/-- The error classifier as realised by the `if is_model_unavailable ...
elif is_retryable ... else` chain of `MultiModelLLMManager.generate`
(lines 360-367), applied to the lowercased error text. -/
def classify (errorStr : String) : Verdict :=
  if is_model_unavailable errorStr then Verdict.permanentlyUnavailable
  else if is_retryable errorStr then Verdict.retryable
  else Verdict.fatal

/-- The provider kinds dispatched on by `MultiModelLLMManager.generate`
(lines 315-328); `other` is the fall-through `else: continue` branch. -/
inductive Provider where
  | groq
  | huggingface
  | gemini
  | other
deriving DecidableEq, Repr

/-- One entry of `self.models`: the fields of the model-info dictionary that
the dispatch loop reads (`name`, `provider`, `enabled`). -/
structure Model where
  name : String
  provider : Provider
  enabled : Bool
deriving DecidableEq, Repr

/-- One entry of `self.model_stats`: `{'success': ..., 'failures': ...}`. -/
structure Stats where
  success : Nat
  failures : Nat
deriving DecidableEq, Repr

/-- The statistics dictionary `self.model_stats`, keyed by provider. -/
def StatsMap : Type := Provider → Stats

/-- `self.model_stats[provider]['success'] += 1` (line 333). -/
def bumpSuccess (sts : StatsMap) (p : Provider) : StatsMap :=
  fun q => if q = p then ⟨(sts q).success + 1, (sts q).failures⟩ else sts q

/-- `self.model_stats[provider]['failures'] += 1` (line 350). -/
def bumpFailure (sts : StatsMap) (p : Provider) : StatsMap :=
  fun q => if q = p then ⟨(sts q).success, (sts q).failures + 1⟩ else sts q

/-- The mutable manager state: `self.models` and `self.model_stats`. -/
structure MState where
  models : List Model
  stats : StatsMap

/-- The observable outcome of one `generate` call: the returned text or the
raised exhaustion error (attempted provider names and the string of the last
raised error), the manager state afterwards, and the trace of the provider
entries whose adapters were actually invoked, in invocation order. -/
structure GenOut where
  result : Except (List String × Option String) String
  models : List Model
  stats : StatsMap
  trace : List Model

/-- The body of the `for model_info in self.models:` loop of
`MultiModelLLMManager.generate` (lines 300-379) together with the final
`raise Exception(...)` (lines 381-390).

`oracle name` is what the provider's adapter returns (`Except.ok text`) or
raises (`Except.error message`) when invoked on this call; `norm` is
`self.text_corrector.fix_llm_response` (`Except.error` = it raises).
A disabled entry is skipped before being recorded as attempted; an enabled
entry is appended to `attempted_models`; an unknown provider hits the
`else: continue` branch without touching stats; otherwise the adapter runs:
on success the success counter is bumped and (per `fix_typos`) the
normalizer runs *inside the try block*, so a normalizer exception falls into
the same `except` handler as an adapter failure; on failure the failure
counter is bumped and, when `is_model_unavailable` matches the lowercased
message, the entry's `enabled` flag is set to `False`. -/
def generateGo (oracle : String → Except String String)
    (norm : String → Except String String) (fixTypos : Bool) :
    List Model → StatsMap → List String → Option String → List Model → GenOut
  | [], sts, attempted, lastErr, tr =>
      ⟨Except.error (attempted, lastErr), [], sts, tr⟩
  | m :: ms, sts, attempted, lastErr, tr =>
      if m.enabled = true then
        let attempted1 := attempted ++ [m.name]
        if m.provider = Provider.other then
          let out := generateGo oracle norm fixTypos ms sts attempted1 lastErr tr
          ⟨out.result, m :: out.models, out.stats, out.trace⟩
        else
          let tr1 := tr ++ [m]
          match oracle m.name with
          | Except.ok raw =>
              let sts1 := bumpSuccess sts m.provider
              if fixTypos && raw != "" then
                match norm raw with
                | Except.ok corrected => ⟨Except.ok corrected, m :: ms, sts1, tr1⟩
                | Except.error emsg =>
                    let sts2 := bumpFailure sts1 m.provider
                    let m1 := if is_model_unavailable (pyLower emsg) then
                        { m with enabled := false } else m
                    let out := generateGo oracle norm fixTypos ms sts2 attempted1
                        (some emsg) tr1
                    ⟨out.result, m1 :: out.models, out.stats, out.trace⟩
              else ⟨Except.ok raw, m :: ms, sts1, tr1⟩
          | Except.error emsg =>
              let sts2 := bumpFailure sts m.provider
              let m1 := if is_model_unavailable (pyLower emsg) then
                  { m with enabled := false } else m
              let out := generateGo oracle norm fixTypos ms sts2 attempted1
                  (some emsg) tr1
              ⟨out.result, m1 :: out.models, out.stats, out.trace⟩
      else
        let out := generateGo oracle norm fixTypos ms sts attempted lastErr tr
        ⟨out.result, m :: out.models, out.stats, out.trace⟩

/-- `MultiModelLLMManager.generate`: run the fallback loop from the current
manager state with empty accumulators. -/
def generate (oracle : String → Except String String)
    (norm : String → Except String String) (fixTypos : Bool) (s : MState) :
    GenOut :=
  generateGo oracle norm fixTypos s.models s.stats [] none []

/-- One `generate` call's environment: the adapter outcomes, the normalizer
behaviour and the `fix_typos` argument. -/
structure CallSpec where
  oracle : String → Except String String
  norm : String → Except String String
  fixTypos : Bool

/-- A sequence of `generate` calls on the same manager instance; returns the
final state and the invocation trace of each call, in call order. -/
def runCalls : List CallSpec → MState → MState × List (List Model)
  | [], s => (s, [])
  | c :: cs, s =>
      let out := generate c.oracle c.norm c.fixTypos s
      let rest := runCalls cs ⟨out.models, out.stats⟩
      (rest.1, out.trace :: rest.2)

/-! ### The prompt flattener `_messages_to_prompt` -/

/-- One element of the `messages` list: the `role` and `content` fields as
read through `msg.get('role', 'user')` / `msg.get('content', '')`. -/
structure Msg where
  role : Option String
  content : Option String
deriving DecidableEq, Repr

/-- The `prompt_parts` accumulation loop of `_messages_to_prompt`
(lines 258-267). -/
def promptParts : List Msg → List String
  | [] => []
  | msg :: rest =>
      let role := msg.role.getD "user"
      let content := msg.content.getD ""
      if role = "system" then ("System: " ++ content ++ "\n") :: promptParts rest
      else if role = "user" then ("User: " ++ content ++ "\n") :: promptParts rest
      else if role = "assistant" then
        ("Assistant: " ++ content ++ "\n") :: promptParts rest
      else promptParts rest

/-- `_messages_to_prompt` (lines 256-268): `"\n".join(prompt_parts)`. -/
def messages_to_prompt (msgs : List Msg) : String :=
  String.intercalate "\n" (promptParts msgs)

/-- Spec-side predicate: a message is kept iff its defaulted role is one of
the three recognised roles. -/
def keepMsg (m : Msg) : Bool :=
  let role := m.role.getD "user"
  role = "system" || role = "user" || role = "assistant"

/-- Spec-side rendering: a kept message prefixed by its role label. -/
def renderMsg (m : Msg) : String :=
  let role := m.role.getD "user"
  let content := m.content.getD ""
  if role = "system" then "System: " ++ content ++ "\n"
  else if role = "user" then "User: " ++ content ++ "\n"
  else "Assistant: " ++ content ++ "\n"

/-! ### The Hugging Face adapter `_generate_with_huggingface` -/

/-- The JSON bodies the adapter distinguishes: a list (each element's
`generated_text` field), a dict (`error` and `generated_text` fields), or
anything else. -/
inductive HFJson where
  | arr (entries : List (Option String))
  | obj (err : Option String) (generated : Option String)
  | other
deriving DecidableEq, Repr

/-- One HTTP response to a POST of the adapter. -/
structure HFResp where
  status : Nat
  body : HFJson
deriving DecidableEq, Repr

/-- The message of the `requests` `HTTPError` raised by
`response.raise_for_status()`; it carries the status code in its text. -/
def httpErrMsg (status : Nat) (modelName : String) : String :=
  toString status ++ " Client Error for model " ++ modelName

/-- Truthiness of `result.get('error')` on a dict body. -/
def errTruthy : Option String → Bool
  | some s => s != ""
  | none => false

/-- The final `isinstance` chain of `_generate_with_huggingface`
(lines 204-209): a nonempty list yields its head's `generated_text` (default
empty), a dict yields its `generated_text` (default empty), anything else is
the `ValueError("Unexpected response format ...")` path (`none`). -/
def extractText : HFJson → Option String
  | HFJson.arr (e :: _) => some (e.getD "")
  | HFJson.arr [] => none
  | HFJson.obj _ g => some (g.getD "")
  | HFJson.other => none

/-- Whether the first response triggers the warm-up retry (lines 193-195):
a dict body with a truthy `error` containing `'loading'` (lowercased). -/
def loadingRetryNeeded : HFJson → Bool
  | HFJson.obj (some s) _ => s != "" && containsStr (pyLower s) "loading"
  | _ => false

/-- The `for model_name in models_to_try:` loop of
`_generate_with_huggingface` (lines 166-228).

`post mn k` is the response to the (k+1)-th POST made for model id `mn`
during this invocation (k = 0 first attempt, k = 1 the warm-up retry);
the trace records every POST as `(model id, k)`.  A 410/404 first response
sets `last_error` and moves to the next model id; any other error status
raises `HTTPError`, which re-raises on the last model id (compared by name
against `models_to_try[-1]`) and otherwise continues; a dict body with a
truthy `error` containing `'loading'` triggers exactly one re-POST, whose
result then flows into the same `isinstance` extraction chain with no
further loading check; when every model id was consumed the aggregated
`"All Hugging Face models failed. Last error: ..."` exception is raised. -/
def hfTryLoop (post : String → Nat → HFResp) (lastName : String) :
    List String → Option String → List (String × Nat) →
    Except String String × List (String × Nat)
  | [], lastErr, tr =>
      (Except.error ("All Hugging Face models failed. Last error: " ++
        lastErr.getD "None"), tr)
  | mn :: rest, lastErr, tr =>
      let r0 := post mn 0
      let tr0 := tr ++ [(mn, 0)]
      if r0.status = 410 || r0.status = 404 then
        hfTryLoop post lastName rest
          (some ("Model " ++ mn ++ " is no longer available (410 Gone)")) tr0
      else if 400 ≤ r0.status then
        let e := httpErrMsg r0.status mn
        if mn = lastName then (Except.error e, tr0)
        else hfTryLoop post lastName rest (some e) tr0
      else
        if loadingRetryNeeded r0.body then
          let r1 := post mn 1
          let tr1 := tr0 ++ [(mn, 1)]
          if r1.status = 410 || r1.status = 404 then
            hfTryLoop post lastName rest (some (httpErrMsg r1.status mn)) tr1
          else if 400 ≤ r1.status then
            let e := httpErrMsg r1.status mn
            if mn = lastName then (Except.error e, tr1)
            else hfTryLoop post lastName rest (some e) tr1
          else
            match extractText r1.body with
            | some t => (Except.ok t, tr1)
            | none =>
                let e := "Unexpected response format from Hugging Face"
                if mn = lastName then (Except.error e, tr1)
                else hfTryLoop post lastName rest (some e) tr1
        else
          match extractText r0.body with
          | some t => (Except.ok t, tr0)
          | none =>
              let e := "Unexpected response format from Hugging Face"
              if mn = lastName then (Except.error e, tr0)
              else hfTryLoop post lastName rest (some e) tr0

/-- `_generate_with_huggingface` (lines 151-228): build `models_to_try` from
the primary model id and the declared fallback ids and run the loop. -/
def generate_with_huggingface (post : String → Nat → HFResp)
    (primary : String) (fallbacks : List String) :
    Except String String × List (String × Nat) :=
  let models := primary :: fallbacks
  hfTryLoop post ((models.getLast?).getD "") models none []

/-! ### Decidability helpers -/

instance {ε α : Type} [DecidableEq ε] [DecidableEq α] : DecidableEq (Except ε α) :=
  fun x y =>
    match x, y with
    | Except.ok a, Except.ok b =>
        if h : a = b then isTrue (by rw [h])
        else isFalse (fun hc => h (Except.ok.inj hc))
    | Except.error a, Except.error b =>
        if h : a = b then isTrue (by rw [h])
        else isFalse (fun hc => h (Except.error.inj hc))
    | Except.ok _, Except.error _ => isFalse (fun hc => Except.noConfusion hc)
    | Except.error _, Except.ok _ => isFalse (fun hc => Except.noConfusion hc)

/-! ### C10: prompt flattening -/

/-- `promptParts` keeps exactly the messages with a recognised (defaulted)
role, in order, rendered with their role labels. -/
theorem promptParts_eq_filter (msgs : List Msg) :
    promptParts msgs = (msgs.filter keepMsg).map renderMsg := by
  induction msgs with
  | nil => rfl
  | cons m rest ih =>
      by_cases h1 : m.role.getD "user" = "system"
      · simp [promptParts, keepMsg, renderMsg, h1, List.filter_cons, ih]
      · by_cases h2 : m.role.getD "user" = "user"
        · simp [promptParts, keepMsg, renderMsg, h1, h2, List.filter_cons, ih]
        · by_cases h3 : m.role.getD "user" = "assistant"
          · simp [promptParts, keepMsg, renderMsg, h1, h2, h3, List.filter_cons, ih]
          · simp [promptParts, keepMsg, h1, h2, h3, List.filter_cons, ih]

/-- C10: when the message sequence is flattened into a single prompt, every
message whose defaulted role is not exactly system/user/assistant is
silently omitted, and the remaining messages appear in original order, each
prefixed by its role label (an absent role defaults to user and is kept). -/
theorem mm_c10_prompt_filter (msgs : List Msg) :
    messages_to_prompt msgs =
      String.intercalate "\n" ((msgs.filter keepMsg).map renderMsg) := by
  unfold messages_to_prompt
  rw [promptParts_eq_filter]

/-! ### C9: classification precedence -/

/-- C9: an error text matching both a permanently-unavailable signal and a
retryable signal classifies as PermanentlyUnavailable (the unavailable check
runs first), and a provider failing with such an error is disabled by the
dispatch call. -/
theorem mm_c9_unavailable_precedence (e : String) (m : Model) (sts : StatsMap)
    (norm : String → Except String String) (ft : Bool)
    (hr : is_retryable (pyLower e) = true)
    (hu : is_model_unavailable (pyLower e) = true)
    (hm : m.enabled = true) (hp : m.provider ≠ Provider.other) :
    classify (pyLower e) = Verdict.permanentlyUnavailable ∧
      ∀ x ∈ (generate (fun _ => Except.error e) norm ft ⟨[m], sts⟩).models,
        x.enabled = false := by
  constructor
  · simp [classify, hu]
  · intro x hx
    simp [generate, generateGo, hm, hp, hu] at hx
    simp [hx]

/-- Witness for C9 at the error text "429 Gone". -/
theorem mm_c9_unavailable_precedence_witness :
    (is_retryable (pyLower "429 Gone") = true ∧
     is_model_unavailable (pyLower "429 Gone") = true) ∧
    (classify (pyLower "429 Gone") = Verdict.permanentlyUnavailable ∧
      ∀ x ∈ (generate (fun _ => Except.error "429 Gone") (fun t => Except.ok t)
          false ⟨[⟨"Groq Llama 3.3 70B", Provider.groq, true⟩], fun _ => ⟨0, 0⟩⟩).models,
        x.enabled = false) :=
  ⟨⟨by decide, by decide⟩,
   mm_c9_unavailable_precedence "429 Gone" ⟨"Groq Llama 3.3 70B", Provider.groq, true⟩
     (fun _ => ⟨0, 0⟩) (fun t => Except.ok t) false (by decide) (by decide) rfl
     (by decide)⟩

/-! ### C7: Hugging Face intra-provider fallback -/

/-- Stepping the Hugging Face model loop through a list of model ids whose
first POST replies 410 or 404: every id is tried once, in order, and the
aggregated error carrying the last id's error is raised at the end. -/
theorem hfTryLoop_all_gone (post : String → Nat → HFResp) (lastName : String) :
    ∀ (ms front : List String) (lastM : String) (lastErr : Option String)
      (tr : List (String × Nat)),
      ms = front ++ [lastM] →
      (∀ mn ∈ ms, (post mn 0).status = 410 ∨ (post mn 0).status = 404) →
      hfTryLoop post lastName ms lastErr tr =
        (Except.error ("All Hugging Face models failed. Last error: " ++
          ("Model " ++ lastM ++ " is no longer available (410 Gone)")),
         tr ++ ms.map (fun mn => (mn, 0)))
  | [], front, lastM, lastErr, tr, hsplit, _ => by
      exact absurd hsplit.symm (List.append_ne_nil_of_right_ne_nil front
        (List.cons_ne_nil lastM []))
  | mn :: rest, front, lastM, lastErr, tr, hsplit, h410 => by
      have hmn := h410 mn (List.mem_cons_self mn rest)
      have hcond : ((post mn 0).status = 410 || (post mn 0).status = 404) = true := by
        rcases hmn with h | h <;> simp [h]
      cases front with
      | nil =>
          simp only [List.nil_append, List.cons.injEq] at hsplit
          obtain ⟨hm, hr⟩ := hsplit
          subst hm; subst hr
          unfold hfTryLoop
          rw [if_pos hcond]
          unfold hfTryLoop
          simp
      | cons f fr =>
          simp only [List.cons_append, List.cons.injEq] at hsplit
          obtain ⟨hm, hr⟩ := hsplit
          subst hm
          unfold hfTryLoop
          rw [if_pos hcond]
          rw [hfTryLoop_all_gone post lastName rest fr lastM _ _ hr
            (fun x hx => h410 x (List.mem_cons_of_mem mn hx))]
          simp

/-- POSTs already recorded stay in the trace of the rest of the model loop. -/
theorem hfTryLoop_trace_mono (post : String → Nat → HFResp) (lastName : String) :
    ∀ (ms : List String) (lastErr : Option String) (tr : List (String × Nat)),
      ∀ y ∈ tr, y ∈ (hfTryLoop post lastName ms lastErr tr).2 := by
  intro ms
  induction ms with
  | nil => intro lastErr tr y hy; exact hy
  | cons mn rest ih =>
      intro lastErr tr y hy
      have hy0 : y ∈ tr ++ [(mn, 0)] := List.mem_append_left _ hy
      have hy1 : y ∈ (tr ++ [(mn, 0)]) ++ [(mn, 1)] := List.mem_append_left _ hy0
      simp only [hfTryLoop]
      split
      · exact ih _ _ y hy0
      · split
        · split
          · exact hy0
          · exact ih _ _ y hy0
        · split
          · split
            · exact ih _ _ y hy1
            · split
              · split
                · exact hy1
                · exact ih _ _ y hy1
              · split
                · exact hy1
                · split
                  · exact hy1
                  · exact ih _ _ y hy1
          · split
            · exact hy0
            · split
              · exact hy0
              · exact ih _ _ y hy0

/-- When the last model id occurs only in final position, a failing model
loop POSTs every model id at least once before surfacing any error: an
error result's trace contains the first POST of every model id. -/
theorem hfTryLoop_error_visits_all (post : String → Nat → HFResp)
    (lastName : String) :
    ∀ (ms : List String) (lastErr : Option String) (tr : List (String × Nat))
      (e : String) (tr2 : List (String × Nat)),
      lastName ∉ ms.dropLast →
      hfTryLoop post lastName ms lastErr tr = (Except.error e, tr2) →
      ∀ mn ∈ ms, (mn, 0) ∈ tr2 := by
  intro ms
  induction ms with
  | nil =>
      intro lastErr tr e tr2 _ _ mn hmn
      exact absurd hmn (List.not_mem_nil mn)
  | cons m0 rest ih =>
      intro lastErr tr e tr2 hlast heq mn hmn
      have hlast2 : lastName ∉ rest.dropLast := by
        cases rest with
        | nil => simp
        | cons r rs =>
            intro hin
            rw [List.dropLast_cons₂] at hlast
            exact hlast (List.mem_cons_of_mem m0 hin)
      have hm00 : (m0, 0) ∈ tr ++ [(m0, 0)] :=
        List.mem_append_right _ (List.mem_singleton.mpr rfl)
      have hm01 : (m0, 0) ∈ (tr ++ [(m0, 0)]) ++ [(m0, 1)] :=
        List.mem_append_left _ hm00
      have hraise : ∀ (hm : mn ∈ m0 :: rest),
          m0 = lastName → mn ∈ rest → False := by
        intro _ hc hrest
        have hne : rest ≠ [] := List.ne_nil_of_mem hrest
        cases rest with
        | nil => exact hne rfl
        | cons r rs =>
            rw [List.dropLast_cons₂] at hlast
            exact hlast (hc ▸ List.mem_cons_self m0 _)
      have hstep : ∀ (tr0 : List (String × Nat)) (le2 : Option String),
          (m0, 0) ∈ tr0 →
          hfTryLoop post lastName rest le2 tr0 = (Except.error e, tr2) →
          (mn, 0) ∈ tr2 := by
        intro tr0 le2 hin0 heq2
        rcases List.mem_cons.mp hmn with hm | hm
        · subst hm
          have := hfTryLoop_trace_mono post lastName rest le2 tr0 (mn, 0) hin0
          rw [heq2] at this
          exact this
        · exact ih le2 tr0 e tr2 hlast2 heq2 mn hm
      revert heq
      simp only [hfTryLoop]
      split
      · intro heq
        exact hstep _ _ hm00 heq
      · split
        · split
          · rename_i hcond
            intro heq
            rcases List.mem_cons.mp hmn with hm | hm
            · subst hm
              rw [(Prod.mk.injEq _ _ _ _).mp heq |>.2] at hm00
              exact hm00
            · exact (hraise hmn hcond hm).elim
          · intro heq
            exact hstep _ _ hm00 heq
        · split
          · split
            · intro heq
              exact hstep _ _ hm01 heq
            · split
              · split
                · rename_i hcond
                  intro heq
                  rcases List.mem_cons.mp hmn with hm | hm
                  · subst hm
                    rw [(Prod.mk.injEq _ _ _ _).mp heq |>.2] at hm01
                    exact hm01
                  · exact (hraise hmn hcond hm).elim
                · intro heq
                  exact hstep _ _ hm01 heq
              · split
                · intro heq
                  simp at heq
                · split
                  · rename_i hcond
                    intro heq
                    rcases List.mem_cons.mp hmn with hm | hm
                    · subst hm
                      rw [(Prod.mk.injEq _ _ _ _).mp heq |>.2] at hm01
                      exact hm01
                    · exact (hraise hmn hcond hm).elim
                  · intro heq
                    exact hstep _ _ hm01 heq
          · split
            · intro heq
              simp at heq
            · split
              · rename_i hcond
                intro heq
                rcases List.mem_cons.mp hmn with hm | hm
                · subst hm
                  rw [(Prod.mk.injEq _ _ _ _).mp heq |>.2] at hm00
                  exact hm00
                · exact (hraise hmn hcond hm).elim
              · intro heq
                exact hstep _ _ hm00 heq

/-- C7: the adapter surfaces a failure only after POSTing every declared
model id (primary then each fallback, in declared order) at least once; and
when every model id replies 410/404 it tries each id exactly once, in
order, and surfaces the aggregated "all models failed" error carrying the
last id's error. -/
theorem mm_c7_hf_fallback (post : String → Nat → HFResp) (primary : String)
    (fallbacks front : List String) (lastM : String)
    (hsplit : primary :: fallbacks = front ++ [lastM])
    (hnotin : lastM ∉ front) :
    (∀ (e : String) (tr2 : List (String × Nat)),
      generate_with_huggingface post primary fallbacks =
        (Except.error e, tr2) →
      ∀ mn ∈ primary :: fallbacks, (mn, 0) ∈ tr2) ∧
    ((∀ mn ∈ primary :: fallbacks,
        (post mn 0).status = 410 ∨ (post mn 0).status = 404) →
      generate_with_huggingface post primary fallbacks =
        (Except.error ("All Hugging Face models failed. Last error: " ++
          ("Model " ++ lastM ++ " is no longer available (410 Gone)")),
         (primary :: fallbacks).map (fun mn => (mn, 0)))) := by
  have hlast : ((primary :: fallbacks).getLast?).getD "" = lastM := by
    rw [hsplit, List.getLast?_concat]
    rfl
  have hdrop : (primary :: fallbacks).dropLast = front := by
    rw [hsplit, List.dropLast_concat]
  constructor
  · intro e tr2 heq mn hmn
    have heq2 : hfTryLoop post (((primary :: fallbacks).getLast?).getD "")
        (primary :: fallbacks) none [] = (Except.error e, tr2) := heq
    refine hfTryLoop_error_visits_all post _ (primary :: fallbacks) none [] e
      tr2 ?_ heq2 mn hmn
    rw [hlast, hdrop]
    exact hnotin
  · intro h410
    unfold generate_with_huggingface
    rw [hfTryLoop_all_gone post _ _ front lastM none [] hsplit h410]
    simp

/-- Witness for C7: primary id and one fallback id, both replying 410. -/
theorem mm_c7_hf_fallback_witness :
    (("m1" : String) :: ["m2"] = ["m1"] ++ ["m2"] ∧
     ("m2" : String) ∉ (["m1"] : List String)) ∧
    ((∀ (e : String) (tr2 : List (String × Nat)),
       generate_with_huggingface (fun _ _ => ⟨410, HFJson.other⟩) "m1" ["m2"] =
         (Except.error e, tr2) →
       ∀ mn ∈ ("m1" : String) :: ["m2"], (mn, 0) ∈ tr2) ∧
     ((∀ mn ∈ ("m1" : String) :: ["m2"],
         ((fun (_ : String) (_ : Nat) => (⟨410, HFJson.other⟩ : HFResp)) mn
           0).status = 410 ∨
         ((fun (_ : String) (_ : Nat) => (⟨410, HFJson.other⟩ : HFResp)) mn
           0).status = 404) →
       generate_with_huggingface (fun _ _ => ⟨410, HFJson.other⟩) "m1" ["m2"] =
         (Except.error ("All Hugging Face models failed. Last error: " ++
           ("Model " ++ "m2" ++ " is no longer available (410 Gone)")),
          (("m1" : String) :: ["m2"]).map (fun mn => (mn, 0))))) :=
  ⟨⟨rfl, by decide⟩,
   mm_c7_hf_fallback (fun _ _ => ⟨410, HFJson.other⟩) "m1" ["m2"] ["m1"] "m2" rfl
     (by decide)⟩

/-! ### C6: warm-up retry (corrected) -/

/-- Counterexample to C6 as stated: with the model still loading on both the
first POST and the retry, the adapter does not give up with a failure — it
performs exactly one retry and then returns the empty string as a success. -/
theorem mm_c6_still_loading_cex :
    generate_with_huggingface
      (fun _ _ => ⟨200, HFJson.obj (some "Model m1 is currently loading") none⟩)
      "m1" [] = (Except.ok "", [("m1", 0), ("m1", 1)]) := by
  decide

/-- C6 amended: on a loading first response the adapter performs exactly one
delayed retry (one re-POST) and never a second; but when the retry again
returns an HTTP 200 dict body — in particular one still reporting the
loading error — the adapter does not fail: it returns that body's
generated_text field, defaulting to the empty string, as a success. -/
theorem mm_c6_warmup_retry (post : String → Nat → HFResp) (mn : String)
    (rest : List String) (s s2 : String) (g g2 : Option String)
    (h0 : post mn 0 = ⟨200, HFJson.obj (some s) g⟩)
    (hs : s ≠ "" ∧ containsStr (pyLower s) "loading" = true)
    (h1 : post mn 1 = ⟨200, HFJson.obj (some s2) g2⟩) :
    generate_with_huggingface post mn rest =
      (Except.ok (g2.getD ""), [(mn, 0), (mn, 1)]) := by
  obtain ⟨hs1, hs2⟩ := hs
  unfold generate_with_huggingface hfTryLoop
  rw [h0]
  simp only [loadingRetryNeeded]
  rw [h1]
  simp [extractText, hs1, hs2]

/-- Witness for the amended C6. -/
theorem mm_c6_warmup_retry_witness :
    ((fun (_ : String) (_ : Nat) =>
        (⟨200, HFJson.obj (some "still loading") none⟩ : HFResp)) "mW" 0 =
      ⟨200, HFJson.obj (some "still loading") none⟩ ∧
     ("still loading" ≠ "" ∧ containsStr (pyLower "still loading") "loading" = true)) ∧
    generate_with_huggingface
      (fun _ _ => ⟨200, HFJson.obj (some "still loading") none⟩) "mW" [] =
      (Except.ok ((none : Option String).getD ""), [("mW", 0), ("mW", 1)]) :=
  ⟨⟨rfl, by decide, by decide⟩,
   mm_c6_warmup_retry (fun _ _ => ⟨200, HFJson.obj (some "still loading") none⟩)
     "mW" [] "still loading" "still loading" none none rfl ⟨by decide, by decide⟩ rfl⟩

/-! ### The failing-front decomposition of the dispatch loop -/

/-- The effect of one traversal step at a failing entry on the stats map:
an enabled entry gets its failure counter bumped, a disabled entry is
skipped. -/
def failStats (sts : StatsMap) (m : Model) : StatsMap :=
  if m.enabled = true then bumpFailure sts m.provider else sts

/-- The entry after a failing traversal step: it is disabled exactly when
its adapter's raised message matches the unavailable signals. -/
def failDisable (oracle : String → Except String String) (m : Model) : Model :=
  match oracle m.name with
  | Except.ok _ => m
  | Except.error e =>
      if is_model_unavailable (pyLower e) then { m with enabled := false } else m

/-- The `last_error` accumulator after a failing traversal front. -/
def lastErrAfter (oracle : String → Except String String)
    (pre : List Model) (le : Option String) : Option String :=
  pre.foldl (fun acc m =>
    if m.enabled = true then
      match oracle m.name with
      | Except.error e => some e
      | Except.ok _ => acc
    else acc) le

theorem lastErrAfter_cons (oracle : String → Except String String) (m : Model)
    (pres : List Model) (le : Option String) :
    lastErrAfter oracle (m :: pres) le =
      lastErrAfter oracle pres
        (if m.enabled = true then
          match oracle m.name with
          | Except.error e => some e
          | Except.ok _ => le
         else le) := rfl

theorem failDisable_disabled (oracle : String → Except String String)
    (m : Model) (hm : m.enabled = false) : failDisable oracle m = m := by
  unfold failDisable
  cases h : oracle m.name with
  | ok _ => rfl
  | error e =>
      by_cases hu : is_model_unavailable (pyLower e)
      · simp only [hu, if_true]
        cases m
        simp_all
      · simp [hu]

/-- Stepping the dispatch loop through a front of entries each of which is
disabled or fails: the loop continues on the remainder with the failure
counters of the enabled front entries bumped, their names appended to
`attempted_models`, the last raised error recorded, the enabled front
entries appended to the invocation trace, and each front entry possibly
disabled by the unavailable check. -/
theorem generateGo_fail_front (oracle norm : String → Except String String)
    (ft : Bool) :
    ∀ (pre rest : List Model) (sts : StatsMap) (att : List String)
      (le : Option String) (tr : List Model),
      (∀ m ∈ pre, m.enabled = true →
        m.provider ≠ Provider.other ∧ ∃ e, oracle m.name = Except.error e) →
      generateGo oracle norm ft (pre ++ rest) sts att le tr =
        (let out := generateGo oracle norm ft rest (pre.foldl failStats sts)
            (att ++ (pre.filter (fun m => m.enabled = true)).map (fun m => m.name))
            (lastErrAfter oracle pre le)
            (tr ++ pre.filter (fun m => m.enabled = true));
         ⟨out.result, pre.map (failDisable oracle) ++ out.models,
          out.stats, out.trace⟩) := by
  intro pre
  induction pre with
  | nil =>
      intro rest sts att le tr _
      simp [lastErrAfter]
  | cons m pres ih =>
      intro rest sts att le tr h
      by_cases hm : m.enabled = true
      · obtain ⟨hp, e, he⟩ := h m (List.mem_cons_self m pres) hm
        have hstep :
            generateGo oracle norm ft ((m :: pres) ++ rest) sts att le tr =
              (let out := generateGo oracle norm ft (pres ++ rest)
                  (bumpFailure sts m.provider) (att ++ [m.name]) (some e)
                  (tr ++ [m]);
               ⟨out.result, failDisable oracle m :: out.models,
                out.stats, out.trace⟩) := by
          simp only [List.cons_append, generateGo, hm, if_true, if_neg hp, he,
            failDisable, List.append_eq]
        rw [hstep]
        simp only [List.append_eq]
        rw [ih rest (bumpFailure sts m.provider) (att ++ [m.name]) (some e)
          (tr ++ [m]) (fun x hx hxe => h x (List.mem_cons_of_mem m hx) hxe)]
        simp only [List.foldl_cons, List.filter_cons, List.map_cons,
          lastErrAfter_cons, hm, he, List.cons_append, List.append_eq]
        simp [failStats, failDisable, hm, he, List.append_assoc]
      · have hm' : m.enabled = false := by
          cases hme : m.enabled
          · rfl
          · exact absurd hme hm
        have hstep :
            generateGo oracle norm ft ((m :: pres) ++ rest) sts att le tr =
              (let out := generateGo oracle norm ft (pres ++ rest) sts att le tr;
               ⟨out.result, m :: out.models, out.stats, out.trace⟩) := by
          simp only [List.cons_append, generateGo, hm', Bool.false_eq_true,
            if_false, List.append_eq]
        rw [hstep]
        simp only [List.append_eq]
        rw [ih rest sts att le tr (fun x hx hxe => h x (List.mem_cons_of_mem m hx) hxe)]
        simp only [List.foldl_cons, List.filter_cons, List.map_cons,
          lastErrAfter_cons, hm', List.cons_append, List.append_eq]
        simp [failStats, hm', failDisable_disabled oracle m hm']

/-- A provider whose entries in the front are all disabled keeps its stats
entry unchanged through the failing front. -/
theorem foldl_failStats_not_hit (pre : List Model) (sts : StatsMap)
    (p : Provider) (h : ∀ m ∈ pre, m.provider = p → m.enabled = false) :
    pre.foldl failStats sts p = sts p := by
  induction pre generalizing sts with
  | nil => rfl
  | cons x pres ih =>
      simp only [List.foldl_cons]
      rw [ih _ (fun y hy => h y (List.mem_cons_of_mem x hy))]
      unfold failStats
      by_cases hx : x.enabled = true
      · rw [if_pos hx]
        unfold bumpFailure
        have hxp : ¬ p = x.provider := by
          intro hpp
          have := h x (List.mem_cons_self x pres) hpp.symm
          rw [hx] at this
          exact Bool.true_eq_false.mp this
        rw [if_neg hxp]
      · rw [if_neg hx]

/-- An enabled entry of the failing front, under pairwise-distinct providers,
ends the front with exactly one extra failure on its provider. -/
theorem foldl_failStats_hit (pre : List Model) (sts : StatsMap) (m : Model)
    (hmem : m ∈ pre) (hen : m.enabled = true)
    (hnd : (pre.map (fun x => x.provider)).Nodup) :
    pre.foldl failStats sts m.provider =
      ⟨(sts m.provider).success, (sts m.provider).failures + 1⟩ := by
  induction pre generalizing sts with
  | nil => cases hmem
  | cons x pres ih =>
      simp only [List.map_cons, List.nodup_cons] at hnd
      obtain ⟨hx_notin, hnd2⟩ := hnd
      simp only [List.foldl_cons]
      rcases List.mem_cons.mp hmem with heq | hmem2
      · subst heq
        rw [foldl_failStats_not_hit pres _ m.provider
          (fun y hy hyp => absurd (hyp ▸ List.mem_map_of_mem (fun z => z.provider) hy) hx_notin)]
        unfold failStats
        rw [if_pos hen]
        unfold bumpFailure
        rw [if_pos rfl]
      · rw [ih _ hmem2 hnd2]
        have hxp : ¬ m.provider = x.provider := by
          intro hpp
          exact hx_notin (hpp ▸ List.mem_map_of_mem (fun z => z.provider) hmem2)
        unfold failStats
        by_cases hx : x.enabled = true
        · rw [if_pos hx]
          unfold bumpFailure
          rw [if_neg hxp]
        · rw [if_neg hx]

/-- Under a failing front whose enabled entries all raise the error given by
`errF`, the `last_error` accumulator is the last enabled entry's error. -/
theorem lastErrAfter_errF (oracle : String → Except String String)
    (errF : String → String) :
    ∀ (pre : List Model) (le : Option String),
      (∀ m ∈ pre, m.enabled = true → oracle m.name = Except.error (errF m.name)) →
      lastErrAfter oracle pre le =
        (pre.filter (fun m => m.enabled = true)).foldl
          (fun _ m => some (errF m.name)) le := by
  intro pre
  induction pre with
  | nil => intro le _; rfl
  | cons m pres ih =>
      intro le h
      rw [lastErrAfter_cons]
      by_cases hm : m.enabled = true
      · rw [ih _ (fun x hx => h x (List.mem_cons_of_mem m hx))]
        rw [h m (List.mem_cons_self m pres) hm]
        simp [List.filter_cons, hm]
      · rw [ih _ (fun x hx => h x (List.mem_cons_of_mem m hx))]
        have hm2 : m.enabled = false := by
          cases hme : m.enabled
          · rfl
          · exact absurd hme hm
        simp [List.filter_cons, hm2]

/-- The dispatch step at an enabled entry whose adapter returns text: the
success counter is bumped, the entry is recorded in the invocation trace,
and the call returns the text (normalized only when `fix_typos` holds; here
the normalizer is assumed to leave the winning text unchanged). -/
theorem generateGo_success_head (oracle norm : String → Except String String)
    (ft : Bool) (w : Model) (post : List Model) (sts : StatsMap)
    (att : List String) (le : Option String) (tr : List Model) (t : String)
    (hw : w.enabled = true) (hwp : w.provider ≠ Provider.other)
    (hwo : oracle w.name = Except.ok t)
    (hnorm : ft = true → norm t = Except.ok t) :
    generateGo oracle norm ft (w :: post) sts att le tr =
      ⟨Except.ok t, w :: post, bumpSuccess sts w.provider, tr ++ [w]⟩ := by
  simp only [generateGo, hw, if_true, if_neg hwp, hwo]
  by_cases hc : (ft && (t != "")) = true
  · have hft : ft = true := by
      cases ft
      · simp at hc
      · rfl
    rw [if_pos hc, hnorm hft]
  · rw [if_neg hc]

/-- C3: when every enabled provider fails, the call raises an exhaustion
error whose attempted list is exactly the names of the providers enabled at
call start, in priority order (hence of that length), carrying the raw
error of the last provider tried. -/
theorem mm_c3_exhaustion (oracle norm : String → Except String String)
    (ft : Bool) (s : MState) (errF : String → String)
    (hkn : ∀ m ∈ s.models, m.provider ≠ Provider.other)
    (herr : ∀ m ∈ s.models, m.enabled = true →
      oracle m.name = Except.error (errF m.name)) :
    ∃ lastE,
      (generate oracle norm ft s).result =
        Except.error
          ((s.models.filter (fun m => m.enabled = true)).map (fun m => m.name),
           lastE) ∧
      ((s.models.filter (fun m => m.enabled = true)).map
          (fun m => m.name)).length =
        (s.models.filter (fun m => m.enabled = true)).length ∧
      ∀ (front : List Model) (lastM : Model),
        s.models.filter (fun m => m.enabled = true) = front ++ [lastM] →
        lastE = some (errF lastM.name) := by
  have hff := generateGo_fail_front oracle norm ft s.models [] s.stats [] none []
    (fun m hm hme => ⟨hkn m hm, errF m.name, herr m hm hme⟩)
  rw [List.append_nil] at hff
  have hres : (generate oracle norm ft s).result =
      Except.error
        ((s.models.filter (fun m => m.enabled = true)).map (fun m => m.name),
         lastErrAfter oracle s.models none) := by
    show (generateGo oracle norm ft s.models s.stats [] none []).result = _
    rw [hff]
    simp [generateGo]
  refine ⟨lastErrAfter oracle s.models none, hres, by simp, ?_⟩
  intro front lastM hsplit
  rw [lastErrAfter_errF oracle errF s.models none herr, hsplit,
    List.foldl_append]
  simp

/-- Witness for C3: three enabled providers, all failing with timeouts. -/
theorem mm_c3_exhaustion_witness :
    ((∀ m ∈ [(⟨"A", Provider.groq, true⟩ : Model), ⟨"B", Provider.huggingface, true⟩,
        ⟨"C", Provider.gemini, true⟩], m.provider ≠ Provider.other) ∧
     (∀ m ∈ [(⟨"A", Provider.groq, true⟩ : Model), ⟨"B", Provider.huggingface, true⟩,
        ⟨"C", Provider.gemini, true⟩], m.enabled = true →
        (fun n => (Except.error ("timeout for " ++ n) : Except String String)) m.name =
          Except.error ((fun n => ("timeout for " ++ n : String)) m.name))) ∧
    ∃ lastE,
      (generate (fun n => (Except.error ("timeout for " ++ n) : Except String String))
        (fun u => Except.ok u) false
        ⟨[⟨"A", Provider.groq, true⟩, ⟨"B", Provider.huggingface, true⟩,
          ⟨"C", Provider.gemini, true⟩], fun _ => ⟨0, 0⟩⟩).result =
        Except.error
          ((([(⟨"A", Provider.groq, true⟩ : Model), ⟨"B", Provider.huggingface, true⟩,
              ⟨"C", Provider.gemini, true⟩].filter
              (fun m => m.enabled = true)).map (fun m => m.name)), lastE) ∧
      ((([(⟨"A", Provider.groq, true⟩ : Model), ⟨"B", Provider.huggingface, true⟩,
          ⟨"C", Provider.gemini, true⟩].filter (fun m => m.enabled = true)).map
          (fun m => m.name)).length =
        ([(⟨"A", Provider.groq, true⟩ : Model), ⟨"B", Provider.huggingface, true⟩,
          ⟨"C", Provider.gemini, true⟩].filter (fun m => m.enabled = true)).length) ∧
      ∀ (front : List Model) (lastM : Model),
        [(⟨"A", Provider.groq, true⟩ : Model), ⟨"B", Provider.huggingface, true⟩,
          ⟨"C", Provider.gemini, true⟩].filter (fun m => m.enabled = true) =
          front ++ [lastM] →
        lastE = some ((fun n => ("timeout for " ++ n : String)) lastM.name) :=
  ⟨⟨by decide, by decide⟩,
   mm_c3_exhaustion (fun n => (Except.error ("timeout for " ++ n) : Except String String))
     (fun u => Except.ok u) false
     ⟨[⟨"A", Provider.groq, true⟩, ⟨"B", Provider.huggingface, true⟩,
       ⟨"C", Provider.gemini, true⟩], fun _ => ⟨0, 0⟩⟩
     (fun n => "timeout for " ++ n) (by decide) (by decide)⟩

/-- C1: with pairwise-distinct providers, if every enabled higher-priority
entry fails and entry `w` is enabled and succeeds with text `t` (the
normalizer, if consulted, leaving `t` unchanged), the call returns `t`;
exactly the enabled entries before `w`, followed by `w`, are invoked; each
enabled earlier provider gains exactly one failure; `w`'s provider gains
exactly one success; disabled earlier providers and every lower-priority
provider keep their stats unchanged, and no lower-priority entry is
invoked. -/
theorem mm_c1_priority_dispatch (oracle norm : String → Except String String)
    (ft : Bool) (pre post : List Model) (w : Model) (t : String)
    (errF : String → String) (sts : StatsMap)
    (hprov : ((pre ++ w :: post).map (fun m => m.provider)).Nodup)
    (hpre : ∀ m ∈ pre, m.enabled = true →
      m.provider ≠ Provider.other ∧ oracle m.name = Except.error (errF m.name))
    (hw : w.enabled = true) (hwp : w.provider ≠ Provider.other)
    (hwo : oracle w.name = Except.ok t)
    (hnorm : ft = true → norm t = Except.ok t) :
    (generate oracle norm ft ⟨pre ++ w :: post, sts⟩).result = Except.ok t ∧
    (generate oracle norm ft ⟨pre ++ w :: post, sts⟩).trace =
      pre.filter (fun m => m.enabled = true) ++ [w] ∧
    (generate oracle norm ft ⟨pre ++ w :: post, sts⟩).stats w.provider =
      ⟨(sts w.provider).success + 1, (sts w.provider).failures⟩ ∧
    (∀ m ∈ pre, m.enabled = true →
      (generate oracle norm ft ⟨pre ++ w :: post, sts⟩).stats m.provider =
        ⟨(sts m.provider).success, (sts m.provider).failures + 1⟩) ∧
    (∀ m ∈ pre, m.enabled = false →
      (generate oracle norm ft ⟨pre ++ w :: post, sts⟩).stats m.provider =
        sts m.provider) ∧
    (∀ m ∈ post,
      (generate oracle norm ft ⟨pre ++ w :: post, sts⟩).stats m.provider =
        sts m.provider ∧
      m ∉ (generate oracle norm ft ⟨pre ++ w :: post, sts⟩).trace) := by
  have hnd := List.nodup_append.mp (by simpa using hprov)
  obtain ⟨hndpre, hndr, hdisj⟩ := hnd
  have hndw := List.nodup_cons.mp hndr
  have hwpre : w.provider ∉ pre.map (fun m => m.provider) := by
    intro hin
    exact hdisj hin (List.mem_cons_self _ _)
  have hff := generateGo_fail_front oracle norm ft pre (w :: post) sts [] none []
    (fun m hm hme => ⟨(hpre m hm hme).1, errF m.name, (hpre m hm hme).2⟩)
  have hsucc := generateGo_success_head oracle norm ft w post
    (pre.foldl failStats sts)
    ([] ++ (pre.filter (fun m => m.enabled = true)).map (fun m => m.name))
    (lastErrAfter oracle pre none)
    ([] ++ pre.filter (fun m => m.enabled = true)) t hw hwp hwo hnorm
  have hout : generate oracle norm ft ⟨pre ++ w :: post, sts⟩ =
      ⟨Except.ok t,
       pre.map (failDisable oracle) ++ w :: post,
       bumpSuccess (pre.foldl failStats sts) w.provider,
       ([] ++ pre.filter (fun m => m.enabled = true)) ++ [w]⟩ := by
    show generateGo oracle norm ft (pre ++ w :: post) sts [] none [] = _
    rw [hff, hsucc]
  refine ⟨?_, ?_, ?_, ?_, ?_, ?_⟩
  · rw [hout]
  · rw [hout]
    simp
  · rw [hout]
    show bumpSuccess (pre.foldl failStats sts) w.provider w.provider = _
    unfold bumpSuccess
    rw [if_pos rfl,
      foldl_failStats_not_hit pre sts w.provider
        (fun m hm hmp =>
          absurd (hmp ▸ List.mem_map_of_mem (fun z => z.provider) hm) hwpre)]
  · intro m hm hme
    rw [hout]
    show bumpSuccess (pre.foldl failStats sts) w.provider m.provider = _
    have hmw : ¬ m.provider = w.provider := by
      intro hpp
      exact hwpre (hpp ▸ List.mem_map_of_mem (fun z => z.provider) hm)
    unfold bumpSuccess
    rw [if_neg hmw, foldl_failStats_hit pre sts m hm hme hndpre]
  · intro m hm hme
    rw [hout]
    show bumpSuccess (pre.foldl failStats sts) w.provider m.provider = _
    have hmw : ¬ m.provider = w.provider := by
      intro hpp
      exact hwpre (hpp ▸ List.mem_map_of_mem (fun z => z.provider) hm)
    unfold bumpSuccess
    rw [if_neg hmw, foldl_failStats_not_hit pre sts m.provider
      (fun y hy hyp => by
        have := List.inj_on_of_nodup_map hndpre hy hm hyp
        rw [this]
        exact hme)]
  · intro m hm
    have hmpost : m.provider ∈ post.map (fun z => z.provider) :=
      List.mem_map_of_mem (fun z => z.provider) hm
    have hmw : ¬ m.provider = w.provider := by
      intro hpp
      exact hndw.1 (hpp ▸ hmpost)
    have hmpre : m.provider ∉ pre.map (fun z => z.provider) := by
      intro hin
      exact hdisj hin (List.mem_cons_of_mem _ hmpost)
    constructor
    · rw [hout]
      show bumpSuccess (pre.foldl failStats sts) w.provider m.provider = _
      unfold bumpSuccess
      rw [if_neg hmw, foldl_failStats_not_hit pre sts m.provider
        (fun y hy hyp =>
          absurd (hyp ▸ List.mem_map_of_mem (fun z => z.provider) hy) hmpre)]
    · rw [hout]
      intro htr
      simp only [List.nil_append] at htr
      rcases List.mem_append.mp htr with hfil | hsing
      · have hmem := List.mem_of_mem_filter hfil
        exact hmpre (List.mem_map_of_mem (fun z => z.provider) hmem)
      · have : m = w := List.mem_singleton.mp hsing
        exact hmw (by rw [this])

/-- Witness for C1: registry [A(groq), B(huggingface), C(gemini)], A fails
with a 429, B succeeds with "Paris is the capital of France.", C untouched. -/
theorem mm_c1_priority_dispatch_witness :
    ((([(⟨"A", Provider.groq, true⟩ : Model)] ++
        (⟨"B", Provider.huggingface, true⟩ : Model) ::
          [(⟨"C", Provider.gemini, true⟩ : Model)]).map
        (fun m => m.provider)).Nodup ∧
     (∀ m ∈ [(⟨"A", Provider.groq, true⟩ : Model)], m.enabled = true →
        m.provider ≠ Provider.other ∧
        (fun n => if n = "A" then (Except.error "429 rate limit" : Except String String)
          else if n = "B" then Except.ok "Paris is the capital of France."
          else Except.error "x") m.name =
          Except.error ((fun _ => ("429 rate limit" : String)) m.name)) ∧
     (fun n => if n = "A" then (Except.error "429 rate limit" : Except String String)
        else if n = "B" then Except.ok "Paris is the capital of France."
        else Except.error "x") "B" =
       Except.ok "Paris is the capital of France.") ∧
    ((generate
        (fun n => if n = "A" then (Except.error "429 rate limit" : Except String String)
          else if n = "B" then Except.ok "Paris is the capital of France."
          else Except.error "x")
        (fun u => Except.ok u) false
        ⟨[(⟨"A", Provider.groq, true⟩ : Model)] ++
          (⟨"B", Provider.huggingface, true⟩ : Model) ::
            [(⟨"C", Provider.gemini, true⟩ : Model)], fun _ => ⟨0, 0⟩⟩).result =
       Except.ok "Paris is the capital of France." ∧
     (generate
        (fun n => if n = "A" then (Except.error "429 rate limit" : Except String String)
          else if n = "B" then Except.ok "Paris is the capital of France."
          else Except.error "x")
        (fun u => Except.ok u) false
        ⟨[(⟨"A", Provider.groq, true⟩ : Model)] ++
          (⟨"B", Provider.huggingface, true⟩ : Model) ::
            [(⟨"C", Provider.gemini, true⟩ : Model)], fun _ => ⟨0, 0⟩⟩).trace =
       [(⟨"A", Provider.groq, true⟩ : Model)].filter (fun m => m.enabled = true) ++
         [⟨"B", Provider.huggingface, true⟩] ∧
     (generate
        (fun n => if n = "A" then (Except.error "429 rate limit" : Except String String)
          else if n = "B" then Except.ok "Paris is the capital of France."
          else Except.error "x")
        (fun u => Except.ok u) false
        ⟨[(⟨"A", Provider.groq, true⟩ : Model)] ++
          (⟨"B", Provider.huggingface, true⟩ : Model) ::
            [(⟨"C", Provider.gemini, true⟩ : Model)], fun _ => ⟨0, 0⟩⟩).stats
        (⟨"B", Provider.huggingface, true⟩ : Model).provider =
       ⟨((fun (_ : Provider) => (⟨0, 0⟩ : Stats))
           (⟨"B", Provider.huggingface, true⟩ : Model).provider).success + 1,
        ((fun (_ : Provider) => (⟨0, 0⟩ : Stats))
           (⟨"B", Provider.huggingface, true⟩ : Model).provider).failures⟩ ∧
     (∀ m ∈ [(⟨"A", Provider.groq, true⟩ : Model)], m.enabled = true →
        (generate
          (fun n => if n = "A" then (Except.error "429 rate limit" : Except String String)
            else if n = "B" then Except.ok "Paris is the capital of France."
            else Except.error "x")
          (fun u => Except.ok u) false
          ⟨[(⟨"A", Provider.groq, true⟩ : Model)] ++
            (⟨"B", Provider.huggingface, true⟩ : Model) ::
              [(⟨"C", Provider.gemini, true⟩ : Model)], fun _ => ⟨0, 0⟩⟩).stats
          m.provider =
         ⟨((fun (_ : Provider) => (⟨0, 0⟩ : Stats)) m.provider).success,
          ((fun (_ : Provider) => (⟨0, 0⟩ : Stats)) m.provider).failures + 1⟩) ∧
     (∀ m ∈ [(⟨"A", Provider.groq, true⟩ : Model)], m.enabled = false →
        (generate
          (fun n => if n = "A" then (Except.error "429 rate limit" : Except String String)
            else if n = "B" then Except.ok "Paris is the capital of France."
            else Except.error "x")
          (fun u => Except.ok u) false
          ⟨[(⟨"A", Provider.groq, true⟩ : Model)] ++
            (⟨"B", Provider.huggingface, true⟩ : Model) ::
              [(⟨"C", Provider.gemini, true⟩ : Model)], fun _ => ⟨0, 0⟩⟩).stats
          m.provider = (fun (_ : Provider) => (⟨0, 0⟩ : Stats)) m.provider) ∧
     (∀ m ∈ [(⟨"C", Provider.gemini, true⟩ : Model)],
        (generate
          (fun n => if n = "A" then (Except.error "429 rate limit" : Except String String)
            else if n = "B" then Except.ok "Paris is the capital of France."
            else Except.error "x")
          (fun u => Except.ok u) false
          ⟨[(⟨"A", Provider.groq, true⟩ : Model)] ++
            (⟨"B", Provider.huggingface, true⟩ : Model) ::
              [(⟨"C", Provider.gemini, true⟩ : Model)], fun _ => ⟨0, 0⟩⟩).stats
          m.provider = (fun (_ : Provider) => (⟨0, 0⟩ : Stats)) m.provider ∧
        m ∉ (generate
          (fun n => if n = "A" then (Except.error "429 rate limit" : Except String String)
            else if n = "B" then Except.ok "Paris is the capital of France."
            else Except.error "x")
          (fun u => Except.ok u) false
          ⟨[(⟨"A", Provider.groq, true⟩ : Model)] ++
            (⟨"B", Provider.huggingface, true⟩ : Model) ::
              [(⟨"C", Provider.gemini, true⟩ : Model)], fun _ => ⟨0, 0⟩⟩).trace)) :=
  ⟨⟨by decide, by decide, by decide⟩,
   mm_c1_priority_dispatch
     (fun n => if n = "A" then (Except.error "429 rate limit" : Except String String)
       else if n = "B" then Except.ok "Paris is the capital of France."
       else Except.error "x")
     (fun u => Except.ok u) false
     [⟨"A", Provider.groq, true⟩] [⟨"C", Provider.gemini, true⟩]
     ⟨"B", Provider.huggingface, true⟩ "Paris is the capital of France."
     (fun _ => "429 rate limit") (fun _ => ⟨0, 0⟩)
     (by decide) (by decide) rfl (by decide) (by decide)
     (fun h => Bool.noConfusion h)⟩

/-- C8: a provider failing with a Fatal-classified error (neither retryable
nor unavailable signals) does not abort the call: its failure is recorded,
it stays enabled, and the dispatcher advances, so a later enabled provider
that succeeds still serves the request. -/
theorem mm_c8_fatal_no_abort (oracle norm : String → Except String String)
    (ft : Bool) (pre mid post : List Model) (f w : Model) (t e : String)
    (errF : String → String) (sts : StatsMap)
    (hprov : (((pre ++ f :: mid) ++ w :: post).map (fun m => m.provider)).Nodup)
    (hpre : ∀ m ∈ pre, m.enabled = true →
      m.provider ≠ Provider.other ∧ oracle m.name = Except.error (errF m.name))
    (hmid : ∀ m ∈ mid, m.enabled = true →
      m.provider ≠ Provider.other ∧ oracle m.name = Except.error (errF m.name))
    (hf_en : f.enabled = true) (hf_p : f.provider ≠ Provider.other)
    (hf_o : oracle f.name = Except.error e)
    (hf_fatal : classify (pyLower e) = Verdict.fatal)
    (hw : w.enabled = true) (hwp : w.provider ≠ Provider.other)
    (hwo : oracle w.name = Except.ok t)
    (hnorm : ft = true → norm t = Except.ok t) :
    (generate oracle norm ft ⟨(pre ++ f :: mid) ++ w :: post, sts⟩).result =
      Except.ok t ∧
    f ∈ (generate oracle norm ft ⟨(pre ++ f :: mid) ++ w :: post, sts⟩).models ∧
    f.enabled = true ∧
    (generate oracle norm ft ⟨(pre ++ f :: mid) ++ w :: post, sts⟩).stats
        f.provider =
      ⟨(sts f.provider).success, (sts f.provider).failures + 1⟩ ∧
    w ∈ (generate oracle norm ft ⟨(pre ++ f :: mid) ++ w :: post, sts⟩).trace := by
  have hu : is_model_unavailable (pyLower e) = false := by
    cases hb : is_model_unavailable (pyLower e)
    · rfl
    · rw [classify, if_pos hb] at hf_fatal
      cases hf_fatal
  have hmap : ((pre ++ f :: mid).map (fun m => m.provider) ++
      (w.provider :: post.map (fun m => m.provider))).Nodup := by
    have hsplit2 : ((pre ++ f :: mid) ++ w :: post).map (fun m => m.provider) =
        (pre ++ f :: mid).map (fun m => m.provider) ++
          (w.provider :: post.map (fun m => m.provider)) := by
      rw [List.map_append, List.map_cons]
    rw [← hsplit2]
    exact hprov
  have hnd := List.nodup_append.mp hmap
  obtain ⟨hndpre, hndr, hdisj⟩ := hnd
  have hndw := List.nodup_cons.mp hndr
  have hfmem : f ∈ pre ++ f :: mid :=
    List.mem_append_right pre (List.mem_cons_self f mid)
  have hfw : ¬ f.provider = w.provider := by
    intro hpp
    exact hdisj (List.mem_map_of_mem (fun z => z.provider) hfmem)
      (hpp ▸ List.mem_cons_self _ _)
  have hfront : ∀ m ∈ pre ++ f :: mid, m.enabled = true →
      m.provider ≠ Provider.other ∧ ∃ er, oracle m.name = Except.error er := by
    intro m hm hme
    rcases List.mem_append.mp hm with h1 | h2
    · exact ⟨(hpre m h1 hme).1, errF m.name, (hpre m h1 hme).2⟩
    · rcases List.mem_cons.mp h2 with h3 | h4
      · subst h3
        exact ⟨hf_p, e, hf_o⟩
      · exact ⟨(hmid m h4 hme).1, errF m.name, (hmid m h4 hme).2⟩
  have hff := generateGo_fail_front oracle norm ft (pre ++ f :: mid) (w :: post)
    sts [] none [] hfront
  have hsucc := generateGo_success_head oracle norm ft w post
    ((pre ++ f :: mid).foldl failStats sts)
    ([] ++ ((pre ++ f :: mid).filter (fun m => m.enabled = true)).map
      (fun m => m.name))
    (lastErrAfter oracle (pre ++ f :: mid) none)
    ([] ++ (pre ++ f :: mid).filter (fun m => m.enabled = true)) t hw hwp hwo
    hnorm
  have hout : generate oracle norm ft ⟨(pre ++ f :: mid) ++ w :: post, sts⟩ =
      ⟨Except.ok t,
       (pre ++ f :: mid).map (failDisable oracle) ++ w :: post,
       bumpSuccess ((pre ++ f :: mid).foldl failStats sts) w.provider,
       ([] ++ (pre ++ f :: mid).filter (fun m => m.enabled = true)) ++ [w]⟩ := by
    show generateGo oracle norm ft ((pre ++ f :: mid) ++ w :: post) sts [] none []
      = _
    rw [hff, hsucc]
  have hfd : failDisable oracle f = f := by
    simp [failDisable, hf_o, hu]
  refine ⟨?_, ?_, hf_en, ?_, ?_⟩
  · rw [hout]
  · rw [hout]
    refine List.mem_append_left _ ?_
    have := List.mem_map_of_mem (failDisable oracle) hfmem
    rw [hfd] at this
    exact this
  · rw [hout]
    show bumpSuccess ((pre ++ f :: mid).foldl failStats sts) w.provider
        f.provider = _
    unfold bumpSuccess
    rw [if_neg hfw,
      foldl_failStats_hit (pre ++ f :: mid) sts f hfmem hf_en hndpre]
  · rw [hout]
    exact List.mem_append_right _ (List.mem_singleton.mpr rfl)

/-- Witness for C8: one provider failing with a 401 (Fatal), one succeeding
afterwards. -/
theorem mm_c8_fatal_no_abort_witness :
    (classify (pyLower "401 unauthorized") = Verdict.fatal ∧
     (fun n => if n = "A" then (Except.error "401 unauthorized" : Except String String)
       else Except.ok "hi") "A" = Except.error "401 unauthorized" ∧
     (fun n => if n = "A" then (Except.error "401 unauthorized" : Except String String)
       else Except.ok "hi") "B" = Except.ok "hi") ∧
    ((generate
        (fun n => if n = "A" then (Except.error "401 unauthorized" : Except String String)
          else Except.ok "hi")
        (fun u => Except.ok u) false
        ⟨(([] : List Model) ++ (⟨"A", Provider.groq, true⟩ : Model) :: []) ++
          (⟨"B", Provider.huggingface, true⟩ : Model) :: ([] : List Model),
         fun _ => ⟨0, 0⟩⟩).result = Except.ok "hi" ∧
     (⟨"A", Provider.groq, true⟩ : Model) ∈
      (generate
        (fun n => if n = "A" then (Except.error "401 unauthorized" : Except String String)
          else Except.ok "hi")
        (fun u => Except.ok u) false
        ⟨(([] : List Model) ++ (⟨"A", Provider.groq, true⟩ : Model) :: []) ++
          (⟨"B", Provider.huggingface, true⟩ : Model) :: ([] : List Model),
         fun _ => ⟨0, 0⟩⟩).models ∧
     (⟨"A", Provider.groq, true⟩ : Model).enabled = true ∧
     (generate
        (fun n => if n = "A" then (Except.error "401 unauthorized" : Except String String)
          else Except.ok "hi")
        (fun u => Except.ok u) false
        ⟨(([] : List Model) ++ (⟨"A", Provider.groq, true⟩ : Model) :: []) ++
          (⟨"B", Provider.huggingface, true⟩ : Model) :: ([] : List Model),
         fun _ => ⟨0, 0⟩⟩).stats (⟨"A", Provider.groq, true⟩ : Model).provider =
       ⟨((fun (_ : Provider) => (⟨0, 0⟩ : Stats))
           (⟨"A", Provider.groq, true⟩ : Model).provider).success,
        ((fun (_ : Provider) => (⟨0, 0⟩ : Stats))
           (⟨"A", Provider.groq, true⟩ : Model).provider).failures + 1⟩ ∧
     (⟨"B", Provider.huggingface, true⟩ : Model) ∈
      (generate
        (fun n => if n = "A" then (Except.error "401 unauthorized" : Except String String)
          else Except.ok "hi")
        (fun u => Except.ok u) false
        ⟨(([] : List Model) ++ (⟨"A", Provider.groq, true⟩ : Model) :: []) ++
          (⟨"B", Provider.huggingface, true⟩ : Model) :: ([] : List Model),
         fun _ => ⟨0, 0⟩⟩).trace) :=
  ⟨⟨by decide, by decide, by decide⟩,
   mm_c8_fatal_no_abort
     (fun n => if n = "A" then (Except.error "401 unauthorized" : Except String String)
       else Except.ok "hi")
     (fun u => Except.ok u) false [] [] [] ⟨"A", Provider.groq, true⟩
     ⟨"B", Provider.huggingface, true⟩ "hi" "401 unauthorized"
     (fun _ => "x") (fun _ => ⟨0, 0⟩)
     (by decide) (fun m hm => absurd hm (List.not_mem_nil m))
     (fun m hm => absurd hm (List.not_mem_nil m)) rfl (by decide) rfl
     (by decide) rfl (by decide) rfl (fun h => Bool.noConfusion h)⟩

/-- The dispatch loop never adds, removes or renames registry entries. -/
theorem generateGo_models_names (oracle norm : String → Except String String)
    (ft : Bool) :
    ∀ (models : List Model) (sts : StatsMap) (att : List String)
      (le : Option String) (tr : List Model),
      (generateGo oracle norm ft models sts att le tr).models.map
          (fun m => m.name) =
        models.map (fun m => m.name) := by
  intro models
  induction models with
  | nil => intro sts att le tr; rfl
  | cons m ms ih =>
      intro sts att le tr
      simp only [generateGo]
      split
      · split
        · simp [ih]
        · split
          · split
            · split
              · simp
              · split <;> simp [ih]
            · simp
          · split <;> simp [ih]
      · simp [ih]

/-- Every invocation-trace entry is either inherited from the accumulator or
one of the traversed registry entries. -/
theorem generateGo_trace_sub (oracle norm : String → Except String String)
    (ft : Bool) :
    ∀ (models : List Model) (sts : StatsMap) (att : List String)
      (le : Option String) (tr : List Model),
      ∀ x ∈ (generateGo oracle norm ft models sts att le tr).trace,
        x ∈ tr ∨ x ∈ models := by
  intro models
  induction models with
  | nil => intro sts att le tr x hx; exact Or.inl hx
  | cons m ms ih =>
      intro sts att le tr x hx
      simp only [generateGo] at hx
      have step : ∀ y, (y ∈ tr ++ [m] ∨ y ∈ ms) → y ∈ tr ∨ y ∈ m :: ms := by
        intro y hy
        rcases hy with hy1 | hy2
        · rcases List.mem_append.mp hy1 with h1 | h2
          · exact Or.inl h1
          · exact Or.inr (List.mem_singleton.mp h2 ▸ List.mem_cons_self m ms)
        · exact Or.inr (List.mem_cons_of_mem m hy2)
      revert hx
      split
      · split
        · intro hx
          rcases ih sts _ le tr x hx with h1 | h2
          · exact Or.inl h1
          · exact Or.inr (List.mem_cons_of_mem m h2)
        · split
          · split
            · split
              · intro hx
                exact step x (Or.inl hx)
              · intro hx
                exact step x (ih _ _ _ (tr ++ [m]) x hx)
            · intro hx
              exact step x (Or.inl hx)
          · intro hx
            exact step x (ih _ _ _ (tr ++ [m]) x hx)
      · intro hx
        rcases ih sts att le tr x hx with h1 | h2
        · exact Or.inl h1
        · exact Or.inr (List.mem_cons_of_mem m h2)

/-- If every entry named `P` is disabled at call start, the call neither
invokes `P` nor re-enables it. -/
theorem generateGo_disabled_stays (oracle norm : String → Except String String)
    (ft : Bool) (P : String) :
    ∀ (models : List Model) (sts : StatsMap) (att : List String)
      (le : Option String) (tr : List Model),
      (∀ m ∈ models, m.name = P → m.enabled = false) →
      (∀ y ∈ tr, y.name ≠ P) →
      (∀ x ∈ (generateGo oracle norm ft models sts att le tr).models,
        x.name = P → x.enabled = false) ∧
      (∀ y ∈ (generateGo oracle norm ft models sts att le tr).trace,
        y.name ≠ P) := by
  intro models
  induction models with
  | nil =>
      intro sts att le tr _ htr
      exact ⟨fun x hx => absurd hx (List.not_mem_nil x), htr⟩
  | cons m ms ih =>
      intro sts att le tr hall htr
      have hmP : m.name = P → m.enabled = false :=
        hall m (List.mem_cons_self m ms)
      have hall2 : ∀ x ∈ ms, x.name = P → x.enabled = false :=
        fun x hx => hall x (List.mem_cons_of_mem m hx)
      simp only [generateGo]
      split
      · rename_i hen
        have hmnP : m.name ≠ P := by
          intro hP
          rw [hmP hP] at hen
          exact Bool.false_ne_true hen
        have htr2 : ∀ y ∈ tr ++ [m], y.name ≠ P := by
          intro y hy
          rcases List.mem_append.mp hy with h1 | h2
          · exact htr y h1
          · rw [List.mem_singleton.mp h2]
            exact hmnP
        split
        · obtain ⟨ihm, iht⟩ := ih sts _ le tr hall2 htr
          constructor
          · intro x hx
            rcases List.mem_cons.mp hx with h1 | h2
            · rw [h1]
              exact hmP
            · exact ihm x h2
          · exact iht
        · split
          · split
            · split
              · constructor
                · intro x hx hxP
                  exact hall x hx hxP
                · exact htr2
              · obtain ⟨ihm, iht⟩ := ih _ _ _ (tr ++ [m]) hall2 htr2
                constructor
                · intro x hx
                  rcases List.mem_cons.mp hx with h1 | h2
                  · rw [h1]
                    split
                    · intro _
                      rfl
                    · intro hxP
                      exact absurd hxP hmnP
                  · exact ihm x h2
                · exact iht
            · constructor
              · intro x hx hxP
                exact hall x hx hxP
              · exact htr2
          · obtain ⟨ihm, iht⟩ := ih _ _ _ (tr ++ [m]) hall2 htr2
            constructor
            · intro x hx
              rcases List.mem_cons.mp hx with h1 | h2
              · rw [h1]
                split
                · intro _
                  rfl
                · intro hxP
                  exact absurd hxP hmnP
              · exact ihm x h2
            · exact iht
      · obtain ⟨ihm, iht⟩ := ih sts att le tr hall2 htr
        rename_i hen
        have hmf : m.enabled = false := by
          cases hme : m.enabled
          · rfl
          · exact absurd hme hen
        constructor
        · intro x hx
          rcases List.mem_cons.mp hx with h1 | h2
          · intro _
            rw [h1]
            exact hmf
          · exact ihm x h2
        · exact iht

/-- If entry names are distinct and the call invokes the provider named `P`,
whose adapter raises an error matching the unavailable signals, then every
entry named `P` is disabled in the state after the call. -/
theorem generateGo_unavailable_disables
    (oracle norm : String → Except String String) (ft : Bool) (P e : String)
    (hoe : oracle P = Except.error e)
    (hu : is_model_unavailable (pyLower e) = true) :
    ∀ (models : List Model) (sts : StatsMap) (att : List String)
      (le : Option String) (tr : List Model),
      (models.map (fun m => m.name)).Nodup →
      (∀ y ∈ tr, y.name ≠ P) →
      P ∈ (generateGo oracle norm ft models sts att le tr).trace.map
        (fun m => m.name) →
      ∀ x ∈ (generateGo oracle norm ft models sts att le tr).models,
        x.name = P → x.enabled = false := by
  intro models
  induction models with
  | nil =>
      intro sts att le tr _ htr hP x hx
      exact absurd hx (List.not_mem_nil x)
  | cons m ms ih =>
      intro sts att le tr hnd htr
      simp only [List.map_cons, List.nodup_cons] at hnd
      obtain ⟨hm_notin, hnd2⟩ := hnd
      simp only [generateGo]
      split
      · rename_i hen
        split
        · -- unknown provider: not invoked, continue
          intro hP x hx hxP
          have hPms : P ∈ ms.map (fun z => z.name) := by
            obtain ⟨y, hy, hyname⟩ := List.mem_map.mp hP
            rcases generateGo_trace_sub oracle norm ft ms _ _ _ tr y hy with h1 | h2
            · exact absurd hyname (htr y h1)
            · exact hyname ▸ List.mem_map_of_mem (fun z => z.name) h2
          rcases List.mem_cons.mp hx with h1 | h2
          · have hmp2 : m.name = P := by
              rw [h1] at hxP
              exact hxP
            rw [hmp2] at hm_notin
            exact absurd hPms hm_notin
          · exact ih _ _ _ tr hnd2 htr hP x h2 hxP
        · rename_i hpo
          cases hor : oracle m.name with
          | ok raw =>
              have hmP : m.name ≠ P := by
                intro hcontra
                rw [hcontra, hoe] at hor
                cases hor
              have htr2 : ∀ y ∈ tr ++ [m], y.name ≠ P := by
                intro y hy
                rcases List.mem_append.mp hy with h1 | h2
                · exact htr y h1
                · rw [List.mem_singleton.mp h2]
                  exact hmP
              dsimp only
              split
              · cases hnr : norm raw with
                | ok corrected =>
                    dsimp only
                    intro hP x hx hxP
                    obtain ⟨y, hy, hyname⟩ := List.mem_map.mp hP
                    exact absurd hyname (htr2 y hy)
                | error emsg =>
                    dsimp only
                    intro hP x hx hxP
                    rcases List.mem_cons.mp hx with h1 | h2
                    · subst h1
                      revert hxP
                      split
                      · intro _
                        rfl
                      · intro hxP
                        exact absurd hxP hmP
                    · exact ih _ _ _ (tr ++ [m]) hnd2 htr2 hP x h2 hxP
              · intro hP x hx hxP
                obtain ⟨y, hy, hyname⟩ := List.mem_map.mp hP
                exact absurd hyname (htr2 y hy)
          | error emsg =>
              dsimp only
              by_cases hmPd : m.name = P
              · have hemsg : emsg = e := by
                  rw [hmPd, hoe] at hor
                  exact (Except.error.inj hor).symm
                subst hemsg
                rw [if_pos hu]
                intro hP x hx hxP
                rcases List.mem_cons.mp hx with h1 | h2
                · rw [h1]
                · have hnames := generateGo_models_names oracle norm ft ms
                    (bumpFailure sts m.provider) (att ++ [m.name]) (some emsg)
                    (tr ++ [m])
                  have : P ∈ ms.map (fun z => z.name) := by
                    rw [← hnames]
                    exact hxP ▸ List.mem_map_of_mem (fun z => z.name) h2
                  rw [hmPd] at hm_notin
                  exact absurd this hm_notin
              · have htr2 : ∀ y ∈ tr ++ [m], y.name ≠ P := by
                  intro y hy
                  rcases List.mem_append.mp hy with h1 | h2
                  · exact htr y h1
                  · rw [List.mem_singleton.mp h2]
                    exact hmPd
                intro hP x hx hxP
                rcases List.mem_cons.mp hx with h1 | h2
                · subst h1
                  revert hxP
                  split
                  · intro _
                    rfl
                  · intro hxP
                    exact absurd hxP hmPd
                · exact ih _ _ _ (tr ++ [m]) hnd2 htr2 hP x h2 hxP
      · rename_i hen
        have hmf : m.enabled = false := by
          cases hme : m.enabled
          · rfl
          · exact absurd hme hen
        intro hP x hx hxP
        rcases List.mem_cons.mp hx with h1 | h2
        · rw [h1]
          exact hmf
        · exact ih _ _ _ tr hnd2 htr hP x h2 hxP

/-- Entries named `P`, once all disabled, stay disabled through any sequence
of further calls, none of which invokes `P`. -/
theorem runCalls_disabled_stays (P : String) :
    ∀ (calls : List CallSpec) (s : MState),
      (∀ m ∈ s.models, m.name = P → m.enabled = false) →
      (∀ m ∈ (runCalls calls s).1.models, m.name = P → m.enabled = false) ∧
      ∀ tr ∈ (runCalls calls s).2, ∀ y ∈ tr, y.name ≠ P := by
  intro calls
  induction calls with
  | nil =>
      intro s h
      exact ⟨h, fun tr htr => absurd htr (List.not_mem_nil tr)⟩
  | cons c cs ih =>
      intro s h
      have h1 := generateGo_disabled_stays c.oracle c.norm c.fixTypos P s.models
        s.stats [] none [] h (fun y hy => absurd hy (List.not_mem_nil y))
      obtain ⟨h1m, h1t⟩ := h1
      have h2 := ih ⟨(generate c.oracle c.norm c.fixTypos s).models,
        (generate c.oracle c.norm c.fixTypos s).stats⟩ h1m
      constructor
      · exact h2.1
      · intro tr htr
        rcases List.mem_cons.mp htr with hh | hh
        · rw [hh]
          exact h1t
        · exact h2.2 tr hh

/-- C2: once a call classifies an error from the provider named `P` as
permanently unavailable, every entry named `P` is disabled at the end of
that call, remains disabled after any further calls on the same manager,
and no later call ever invokes `P` again. -/
theorem mm_c2_sticky_disable (s : MState) (c : CallSpec) (rest : List CallSpec)
    (P e : String)
    (hnd : (s.models.map (fun m => m.name)).Nodup)
    (hoe : c.oracle P = Except.error e)
    (hu : is_model_unavailable (pyLower e) = true)
    (hinv : P ∈ (generate c.oracle c.norm c.fixTypos s).trace.map
      (fun m => m.name)) :
    (∀ m ∈ (generate c.oracle c.norm c.fixTypos s).models,
      m.name = P → m.enabled = false) ∧
    (∀ m ∈ (runCalls rest ⟨(generate c.oracle c.norm c.fixTypos s).models,
        (generate c.oracle c.norm c.fixTypos s).stats⟩).1.models,
      m.name = P → m.enabled = false) ∧
    ∀ tr ∈ (runCalls rest ⟨(generate c.oracle c.norm c.fixTypos s).models,
        (generate c.oracle c.norm c.fixTypos s).stats⟩).2,
      P ∉ tr.map (fun m => m.name) := by
  have h1 := generateGo_unavailable_disables c.oracle c.norm c.fixTypos P e hoe
    hu s.models s.stats [] none [] hnd
    (fun y hy => absurd hy (List.not_mem_nil y)) hinv
  have h2 := runCalls_disabled_stays P rest
    ⟨(generate c.oracle c.norm c.fixTypos s).models,
     (generate c.oracle c.norm c.fixTypos s).stats⟩ h1
  refine ⟨h1, h2.1, ?_⟩
  intro tr htr hPin
  obtain ⟨y, hy, hyname⟩ := List.mem_map.mp hPin
  exact (h2.2 tr htr y hy) hyname

/-- Witness for C2: provider A hits a 410, a second call would have
succeeded but A is never invoked again. -/
theorem mm_c2_sticky_disable_witness :
    ((([(⟨"A", Provider.groq, true⟩ : Model)].map (fun m => m.name)).Nodup ∧
      (⟨fun _ => Except.error "410 Gone", fun u => Except.ok u, false⟩ :
          CallSpec).oracle "A" = Except.error "410 Gone" ∧
      is_model_unavailable (pyLower "410 Gone") = true ∧
      "A" ∈ (generate
        (⟨fun _ => Except.error "410 Gone", fun u => Except.ok u, false⟩ :
          CallSpec).oracle
        (⟨fun _ => Except.error "410 Gone", fun u => Except.ok u, false⟩ :
          CallSpec).norm
        (⟨fun _ => Except.error "410 Gone", fun u => Except.ok u, false⟩ :
          CallSpec).fixTypos
        ⟨[⟨"A", Provider.groq, true⟩], fun _ => ⟨0, 0⟩⟩).trace.map
        (fun m => m.name)) ∧
     ((∀ m ∈ (generate (fun _ => (Except.error "410 Gone" : Except String String))
          (fun u => Except.ok u) false
          ⟨[⟨"A", Provider.groq, true⟩], fun _ => ⟨0, 0⟩⟩).models,
        m.name = "A" → m.enabled = false) ∧
      (∀ m ∈ (runCalls [⟨fun _ => Except.ok "hi", fun u => Except.ok u, false⟩]
          ⟨(generate (fun _ => (Except.error "410 Gone" : Except String String))
              (fun u => Except.ok u) false
              ⟨[⟨"A", Provider.groq, true⟩], fun _ => ⟨0, 0⟩⟩).models,
           (generate (fun _ => (Except.error "410 Gone" : Except String String))
              (fun u => Except.ok u) false
              ⟨[⟨"A", Provider.groq, true⟩], fun _ => ⟨0, 0⟩⟩).stats⟩).1.models,
        m.name = "A" → m.enabled = false) ∧
      ∀ tr ∈ (runCalls [⟨fun _ => Except.ok "hi", fun u => Except.ok u, false⟩]
          ⟨(generate (fun _ => (Except.error "410 Gone" : Except String String))
              (fun u => Except.ok u) false
              ⟨[⟨"A", Provider.groq, true⟩], fun _ => ⟨0, 0⟩⟩).models,
           (generate (fun _ => (Except.error "410 Gone" : Except String String))
              (fun u => Except.ok u) false
              ⟨[⟨"A", Provider.groq, true⟩], fun _ => ⟨0, 0⟩⟩).stats⟩).2,
        "A" ∉ tr.map (fun m => m.name))) :=
  ⟨⟨by decide, by decide, by decide, by decide⟩,
   mm_c2_sticky_disable ⟨[⟨"A", Provider.groq, true⟩], fun _ => ⟨0, 0⟩⟩
     ⟨fun _ => Except.error "410 Gone", fun u => Except.ok u, false⟩
     [⟨fun _ => Except.ok "hi", fun u => Except.ok u, false⟩] "A" "410 Gone"
     (by decide) (by decide) (by decide) (by decide)⟩

/-! ### C4 and C5: the normalizer runs inside the try block -/

/-- C4 (evaluation at the failing input): with `fix_typos` on and a single
provider whose adapter succeeds, a normalizer failure does NOT leave the
call returning the unnormalized text: the exception is caught by the
per-provider handler, the provider's failure counter is bumped on top of
its success, and — no further provider remaining — the call raises the
exhaustion error carrying the normalizer's message. -/
theorem mm_c4_normalizer_failure_bug :
    (generate (fun _ => Except.ok "Teh text")
      (fun _ => Except.error "normalizer crashed") true
      ⟨[⟨"Groq Llama 3.3 70B", Provider.groq, true⟩],
       fun _ => ⟨0, 0⟩⟩).result =
      Except.error (["Groq Llama 3.3 70B"], some "normalizer crashed") ∧
    (generate (fun _ => Except.ok "Teh text")
      (fun _ => Except.error "normalizer crashed") true
      ⟨[⟨"Groq Llama 3.3 70B", Provider.groq, true⟩],
       fun _ => ⟨0, 0⟩⟩).stats Provider.groq = ⟨1, 1⟩ :=
  ⟨by decide, by decide⟩

/-- C5 counterexample: a single dispatch attempt at provider G (one trace
entry) after which G's success + failures = 2, not 1 — the normalizer
failure bumps the failure counter without a second invocation. -/
theorem mm_c5_conservation_cex :
    ((generate (fun _ => Except.ok "some text")
        (fun _ => Except.error "normalizer exploded") true
        ⟨[⟨"G", Provider.groq, true⟩], fun _ => ⟨0, 0⟩⟩).stats
        Provider.groq).success +
      ((generate (fun _ => Except.ok "some text")
        (fun _ => Except.error "normalizer exploded") true
        ⟨[⟨"G", Provider.groq, true⟩], fun _ => ⟨0, 0⟩⟩).stats
        Provider.groq).failures = 2 ∧
    ((generate (fun _ => Except.ok "some text")
        (fun _ => Except.error "normalizer exploded") true
        ⟨[⟨"G", Provider.groq, true⟩], fun _ => ⟨0, 0⟩⟩).trace.filter
        (fun m => m.provider = Provider.groq)).length = 1 :=
  ⟨by decide, by decide⟩

/-- One call's stats ledger: as long as the normalizer never raises, each
invocation moves success + failures of the invoked entry's provider up by
exactly one. -/
theorem generateGo_stats_sum (oracle norm : String → Except String String)
    (ft : Bool) (hnorm : ∀ t, ∃ u, norm t = Except.ok u) :
    ∀ (models : List Model) (sts : StatsMap) (att : List String)
      (le : Option String) (tr : List Model) (p : Provider),
      ((generateGo oracle norm ft models sts att le tr).stats p).success +
        ((generateGo oracle norm ft models sts att le tr).stats p).failures +
        (tr.filter (fun m => m.provider = p)).length =
      (sts p).success + (sts p).failures +
        ((generateGo oracle norm ft models sts att le tr).trace.filter
          (fun m => m.provider = p)).length := by
  intro models
  induction models with
  | nil => intro sts att le tr p; rfl
  | cons m ms ih =>
      intro sts att le tr p
      simp only [generateGo]
      split
      · split
        · exact ih sts _ le tr p
        · cases hor : oracle m.name with
          | ok raw =>
              dsimp only
              split
              · cases hnr : norm raw with
                | ok corrected =>
                    dsimp only
                    by_cases hp : m.provider = p
                    · simp [bumpSuccess, hp, List.filter_append]
                      omega
                    · simp [bumpSuccess, hp, Ne.symm hp, List.filter_append]
                  | error emsg =>
                    obtain ⟨u, hu2⟩ := hnorm raw
                    rw [hnr] at hu2
                    cases hu2
              · dsimp only
                by_cases hp : m.provider = p
                · simp [bumpSuccess, hp, List.filter_append]
                  omega
                · simp [bumpSuccess, hp, Ne.symm hp, List.filter_append]
          | error emsg =>
              dsimp only
              have hih := ih (bumpFailure sts m.provider) (att ++ [m.name])
                (some emsg) (tr ++ [m]) p
              by_cases hp : m.provider = p
              · simp [bumpFailure, hp, List.filter_append] at hih ⊢
                omega
              · simp [bumpFailure, hp, Ne.symm hp, List.filter_append] at hih ⊢
                omega
      · exact ih sts att le tr p

/-- C5 amended: over any sequence of calls in which the normalizer never
raises, each provider's success + failures counters grow by exactly the
number of dispatch attempts at that provider (one per invocation-trace
entry; adapter-internal retries and skipped disabled entries contribute
nothing).  Without the normalizer proviso this fails: see the
counterexample, where a normalizer failure adds a failure increment with no
second invocation. -/
theorem mm_c5_stats_conservation (p : Provider) :
    ∀ (calls : List CallSpec) (s : MState),
      (∀ c ∈ calls, ∀ t, ∃ u, c.norm t = Except.ok u) →
      ((runCalls calls s).1.stats p).success +
        ((runCalls calls s).1.stats p).failures =
      (s.stats p).success + (s.stats p).failures +
        ((runCalls calls s).2.map
          (fun tr => (tr.filter (fun m => m.provider = p)).length)).sum := by
  intro calls
  induction calls with
  | nil => intro s _; simp [runCalls]
  | cons c cs ih =>
      intro s h
      have h1 := generateGo_stats_sum c.oracle c.norm c.fixTypos
        (h c (List.mem_cons_self c cs)) s.models s.stats [] none [] p
      have h2 := ih ⟨(generate c.oracle c.norm c.fixTypos s).models,
        (generate c.oracle c.norm c.fixTypos s).stats⟩
        (fun d hd => h d (List.mem_cons_of_mem c hd))
      simp only [runCalls, List.map_cons, List.sum_cons]
      simp only [generate] at h2 ⊢
      simp only [List.filter_nil, List.length_nil] at h1
      omega

/-- Witness for the amended C5: two calls (a failure, then a success with
typo fixing and a well-behaved normalizer) on a one-provider registry. -/
theorem mm_c5_stats_conservation_witness :
    (∀ c ∈ [(⟨fun _ => Except.error "timeout", fun u => Except.ok u, false⟩ :
        CallSpec),
        ⟨fun _ => Except.ok "hello", fun u => Except.ok u, true⟩],
      ∀ t, ∃ u, c.norm t = Except.ok u) ∧
    ((runCalls
        [(⟨fun _ => Except.error "timeout", fun u => Except.ok u, false⟩ :
          CallSpec),
         ⟨fun _ => Except.ok "hello", fun u => Except.ok u, true⟩]
        ⟨[⟨"G", Provider.groq, true⟩], fun _ => ⟨0, 0⟩⟩).1.stats
        Provider.groq).success +
      ((runCalls
        [(⟨fun _ => Except.error "timeout", fun u => Except.ok u, false⟩ :
          CallSpec),
         ⟨fun _ => Except.ok "hello", fun u => Except.ok u, true⟩]
        ⟨[⟨"G", Provider.groq, true⟩], fun _ => ⟨0, 0⟩⟩).1.stats
        Provider.groq).failures =
      ((⟨[⟨"G", Provider.groq, true⟩], fun _ => ⟨0, 0⟩⟩ : MState).stats
        Provider.groq).success +
      ((⟨[⟨"G", Provider.groq, true⟩], fun _ => ⟨0, 0⟩⟩ : MState).stats
        Provider.groq).failures +
      ((runCalls
        [(⟨fun _ => Except.error "timeout", fun u => Except.ok u, false⟩ :
          CallSpec),
         ⟨fun _ => Except.ok "hello", fun u => Except.ok u, true⟩]
        ⟨[⟨"G", Provider.groq, true⟩], fun _ => ⟨0, 0⟩⟩).2.map
        (fun tr =>
          (tr.filter (fun m => m.provider = Provider.groq)).length)).sum :=
  ⟨by
    intro c hc t
    rcases List.mem_cons.mp hc with h | h
    · subst h
      exact ⟨t, rfl⟩
    · rcases List.mem_cons.mp h with h2 | h2
      · subst h2
        exact ⟨t, rfl⟩
      · exact absurd h2 (List.not_mem_nil c),
   mm_c5_stats_conservation Provider.groq
     [⟨fun _ => Except.error "timeout", fun u => Except.ok u, false⟩,
      ⟨fun _ => Except.ok "hello", fun u => Except.ok u, true⟩]
     ⟨[⟨"G", Provider.groq, true⟩], fun _ => ⟨0, 0⟩⟩
     (by
      intro c hc t
      rcases List.mem_cons.mp hc with h | h
      · subst h
        exact ⟨t, rfl⟩
      · rcases List.mem_cons.mp h with h2 | h2
        · subst h2
          exact ⟨t, rfl⟩
        · exact absurd h2 (List.not_mem_nil c))⟩
